import Mathlib

/-!
Shallow embedding of two resource handlers of the terraform AWS provider —
the Athena database lifecycle and the Route53 health check — together with
the asynchronous-operation completion poller that drives Athena query
executions to a terminal state.

Pure helpers (query-string construction, result-configuration expansion,
the status refresh classification, the delete handlers) are translated
directly from the Go sources.  The generic wait loop itself lives in the
terraform-plugin-sdk, outside this repository's sources; it is modelled
from the specification's description of the poller (`WaitForTerminal`).
Time is measured in seconds; machine `time.Duration` values are mapped to
their second counts.
-/

namespace AwsProvider

/-- Mirror of `aws.StringValue`: dereference an optional string, giving `""` for `nil`. -/
def awsStringValue : Option String → String
  | none => ""
  | some s => s

/-- SDK constant `athena.QueryExecutionStateQueued`. -/
def athenaQueryExecutionStateQueued : String := "QUEUED"

/-- SDK constant `athena.QueryExecutionStateRunning`. -/
def athenaQueryExecutionStateRunning : String := "RUNNING"

/-- SDK constant `athena.QueryExecutionStateSucceeded`. -/
def athenaQueryExecutionStateSucceeded : String := "SUCCEEDED"

/-- SDK constant `athena.QueryExecutionStateFailed`. -/
def athenaQueryExecutionStateFailed : String := "FAILED"

/-- SDK constant `athena.QueryExecutionStateCancelled`. -/
def athenaQueryExecutionStateCancelled : String := "CANCELLED"

/-- Configuration of one polling session (the fields of
`resource.StateChangeConf` used by this repository; `MinTimeout` is the
spacing between successive checks, called `pollInterval` in the spec). -/
structure PollSpec where
  pendingStatuses : List String
  targetStatuses : List String
  timeout : Nat
  initialDelay : Nat
  pollInterval : Nat
deriving DecidableEq

/-- Value returned by one probe call: the opaque fetched result, the status
string used for classification, and an optional local error. -/
structure ProbeResult (α : Type) where
  result : Option α
  status : String
  error : Option String
deriving DecidableEq

/-- Error taxonomy of the poller. -/
inductive PollError where
  | probeError (e : String)
  | unexpectedState (status : String)
  | timeoutError (lastStatus : String) (elapsed : Nat)
deriving DecidableEq

/-- Decidable equality for session outcomes. -/
instance instDecEqExceptOutcome {ε α : Type} [DecidableEq ε] [DecidableEq α] :
    DecidableEq (Except ε α) :=
  fun a b =>
    match a, b with
    | Except.ok x, Except.ok y =>
      match decEq x y with
      | isTrue h => isTrue (by rw [h])
      | isFalse h => isFalse (by intro hh; cases hh; exact h rfl)
    | Except.ok _, Except.error _ => isFalse (by intro hh; cases hh)
    | Except.error x, Except.error y =>
      match decEq x y with
      | isTrue h => isTrue (by rw [h])
      | isFalse h => isFalse (by intro hh; cases hh; exact h rfl)
    | Except.error _, Except.ok _ => isFalse (by intro hh; cases hh)

/-- Modelled from the spec: the body of the wait-for-terminal loop, which is
implemented by `resource.StateChangeConf.WaitForState` in the
terraform-plugin-sdk and is not part of this repository's sources.  The
probe is a function from the call index to the probe's outcome; `n` is the
index of the next call, `elapsed` the wall-clock seconds consumed when that
call is made, and `fuel` bounds the number of remaining iterations.  The
returned pair carries the session outcome and the number of probe calls
performed.  Following the spec: a local error is propagated immediately; a
target status ends the session successfully; a pending status — or an
absent/empty status, the tolerated edge case — continues the loop unless
the timeout has been exceeded; any other status is an unexpected-state
failure. -/
def waitAux (spec : PollSpec) (probe : Nat → ProbeResult α) :
    Nat → Nat → Nat → Option (Except PollError (Option α) × Nat)
  | 0, _, _ => none
  | fuel + 1, n, elapsed =>
    match (probe n).error with
    | some e => some (Except.error (PollError.probeError e), n + 1)
    | none =>
      if (probe n).status ∈ spec.targetStatuses then
        some (Except.ok (probe n).result, n + 1)
      else if (probe n).status ∈ spec.pendingStatuses ∨ (probe n).status = "" then
        if spec.timeout < elapsed then
          some (Except.error (PollError.timeoutError (probe n).status elapsed), n + 1)
        else
          waitAux spec probe fuel (n + 1) (elapsed + spec.pollInterval)
      else
        some (Except.error (PollError.unexpectedState (probe n).status), n + 1)

/-- Modelled from the spec: `WaitForTerminal` runs the polling loop from the
first call, after the initial delay has elapsed. -/
def WaitForTerminal (spec : PollSpec) (probe : Nat → ProbeResult α) (fuel : Nat) :
    Option (Except PollError (Option α) × Nat) :=
  waitAux spec probe fuel 0 spec.initialDelay

/-- The `executionStateConf` built by `queryExecutionResult`: pending
`QUEUED`/`RUNNING`, target `SUCCEEDED`, timeout ten minutes, delay and
minimum spacing three seconds. -/
def athenaExecutionStateConf : PollSpec :=
  { pendingStatuses := [athenaQueryExecutionStateQueued, athenaQueryExecutionStateRunning]
    targetStatuses := [athenaQueryExecutionStateSucceeded]
    timeout := 600
    initialDelay := 3
    pollInterval := 3 }

/-- Mirror of `athena.QueryExecutionStatus`: the fields read by the refresh
function. -/
structure QueryExecutionStatus where
  state : Option String
  stateChangeReason : Option String
deriving DecidableEq

/-- Mirror of `athena.QueryExecution`: the field read by the refresh function. -/
structure QueryExecution where
  status : Option QueryExecutionStatus
deriving DecidableEq

/-- Mirror of `athena.GetQueryExecutionOutput`. -/
structure GetQueryExecutionOutput where
  queryExecution : Option QueryExecution
deriving DecidableEq

/-- Translation of `queryExecutionStateRefreshFunc`, applied to the response
of one `GetQueryExecution` call (`resp` is the returned output pointer,
`respErr` its error).  On a local error it reports state `"failed"` with
that error; on an absent status container it reports an empty status with
no error; on a `FAILED` state carrying a change reason it attaches
`reason: …` as the error; otherwise it returns the output and its state. -/
def queryExecutionStateRefreshFunc (resp : Option GetQueryExecutionOutput)
    (respErr : Option String) : ProbeResult GetQueryExecutionOutput :=
  match respErr with
  | some e => { result := none, status := "failed", error := some e }
  | none =>
    match resp with
    | none => { result := none, status := "", error := none }
    | some out =>
      match out.queryExecution with
      | none => { result := none, status := "", error := none }
      | some qe =>
        match qe.status with
        | none => { result := none, status := "", error := none }
        | some status =>
          { result := some out
            status := awsStringValue status.state
            error :=
              if awsStringValue status.state == athenaQueryExecutionStateFailed
                  && status.stateChangeReason.isSome then
                some ("reason: " ++ awsStringValue status.stateChangeReason)
              else
                none }

/-- One entry of the `encryption_configuration` schema list: the two string
keys the source reads out of the map. -/
structure EncryptionConfigurationInput where
  encryption_option : String
  kms_key : String
deriving DecidableEq

/-- Mirror of `athena.EncryptionConfiguration`. -/
structure EncryptionConfiguration where
  encryptionOption : Option String
  kmsKey : Option String
deriving DecidableEq

/-- Mirror of `athena.ResultConfiguration`. -/
structure ResultConfiguration where
  outputLocation : Option String
  encryptionConfiguration : Option EncryptionConfiguration
deriving DecidableEq

/-- Translation of `expandAthenaResultConfiguration`. -/
def expandAthenaResultConfiguration (bucket : String)
    (encryptionConfigurationList : List EncryptionConfigurationInput) : ResultConfiguration :=
  let resultConfig : ResultConfiguration :=
    { outputLocation := some ("s3://" ++ bucket), encryptionConfiguration := none }
  match encryptionConfigurationList with
  | [] => resultConfig
  | data :: _ =>
    let encryptionConfig : EncryptionConfiguration :=
      { encryptionOption := some data.encryption_option
        kmsKey := if 0 < data.kms_key.length then some data.kms_key else none }
    { resultConfig with encryptionConfiguration := some encryptionConfig }

/-- Translation of the query-string construction in
`resourceAwsAthenaDatabaseDelete`. -/
def dropDatabaseQueryString (name : String) (forceDestroy : Bool) : String :=
  let queryString := "drop database `" ++ name ++ "`"
  let queryString := if forceDestroy then queryString ++ " cascade" else queryString
  queryString ++ ";"

/-- An AWS service error as seen through the `awserr` interface: an error
code and a message. -/
structure AwsError where
  code : String
  message : String
deriving DecidableEq

/-- Executable substring test over the character lists, mirroring
`strings.Contains`. -/
def strContainsSubstr (s pat : String) : Bool :=
  (List.range (s.data.length + 1)).any (fun i => pat.data.isPrefixOf (s.data.drop i))

/-- Modelled from the repository's `isAWSErr` helper, which is declared
outside the provided sources: the error is non-nil, is an AWS error whose
code equals `code`, and whose message contains `message`. -/
def isAWSErr (err : Option AwsError) (code : String) (message : String) : Bool :=
  match err with
  | some e => e.code == code && strContainsSubstr e.message message
  | none => false

/-- SDK constant `route53.ErrCodeNoSuchHealthCheck`. -/
def errCodeNoSuchHealthCheck : String := "NoSuchHealthCheck"

/-- Translation of `resourceAwsRoute53HealthCheckDelete`, applied to the
outcome of the `DeleteHealthCheck` call for the resource's id: `none` is a
nil error return, `some msg` an error with that message. -/
def resourceAwsRoute53HealthCheckDelete (id : String) (deleteErr : Option AwsError) :
    Option String :=
  if isAWSErr deleteErr errCodeNoSuchHealthCheck "" then
    none
  else
    match deleteErr with
    | some e => some ("error deleting Route53 Health Check (" ++ id ++ "): " ++ e.message)
    | none => none

/-- Whether a `GetQueryExecution` response carries a status record: false
exactly when the output, its query execution or its status is absent. -/
def hasStatusContainer : Option GetQueryExecutionOutput → Bool
  | none => false
  | some out =>
    match out.queryExecution with
    | none => false
    | some qe => qe.status.isSome

/-- A response whose execution has the given state and no change reason. -/
def plainStateOutput (s : String) : GetQueryExecutionOutput :=
  ⟨some ⟨some ⟨some s, none⟩⟩⟩

/-- A tiny poll configuration on which the timeout expires during the first
pending observation. -/
def shortFuseSpec : PollSpec :=
  { pendingStatuses := ["P"], targetStatuses := ["T"], timeout := 0
    initialDelay := 1, pollInterval := 1 }

/-- Probe returning the pending status once and the target status afterwards. -/
def shortFuseProbe : Nat → ProbeResult Unit := fun n =>
  if n = 0 then { result := none, status := "P", error := none }
  else { result := none, status := "T", error := none }

/-- The spec's concrete scenario: statuses QUEUED, RUNNING, then SUCCEEDED. -/
def queuedRunningSucceededProbe : Nat → ProbeResult Unit := fun n =>
  if n = 0 then { result := none, status := "QUEUED", error := none }
  else if n = 1 then { result := none, status := "RUNNING", error := none }
  else { result := none, status := "SUCCEEDED", error := none }

/-- Responses for a session whose first check precedes the materialisation
of the remote status record: no output, then a succeeded execution. -/
def lateStatusResps : Nat → Option GetQueryExecutionOutput := fun n =>
  if n = 0 then none else some (plainStateOutput athenaQueryExecutionStateSucceeded)

/-- The refresh function applied to `lateStatusResps`, all calls error-free. -/
def lateStatusProbe : Nat → ProbeResult GetQueryExecutionOutput := fun n =>
  queryExecutionStateRefreshFunc (lateStatusResps n) none

/-- Probe observing RUNNING and then a CANCELLED execution. -/
def runningCancelledProbe : Nat → ProbeResult Unit := fun n =>
  if n = 0 then { result := none, status := "RUNNING", error := none }
  else { result := none, status := "CANCELLED", error := none }

/-- A response whose execution is FAILED with the reason string attached. -/
def failedOutput (reason : String) : GetQueryExecutionOutput :=
  ⟨some ⟨some ⟨some athenaQueryExecutionStateFailed, some reason⟩⟩⟩

/-- Responses for a session observing RUNNING and then a FAILED execution
carrying a state change reason. -/
def failedWithReasonResps : Nat → Option GetQueryExecutionOutput := fun n =>
  if n = 0 then some (plainStateOutput athenaQueryExecutionStateRunning)
  else some (failedOutput "syntax error")

/-- The refresh function applied to `failedWithReasonResps`. -/
def failedWithReasonProbe : Nat → ProbeResult GetQueryExecutionOutput := fun n =>
  queryExecutionStateRefreshFunc (failedWithReasonResps n) none

/-- Responses with an absent status container twice, then a succeeded
execution. -/
def absentThenSucceededResps : Nat → Option GetQueryExecutionOutput := fun n =>
  if n < 2 then some { queryExecution := none }
  else some (plainStateOutput athenaQueryExecutionStateSucceeded)

/-- The refresh function applied to `absentThenSucceededResps`. -/
def absentThenSucceededProbe : Nat → ProbeResult GetQueryExecutionOutput := fun n =>
  queryExecutionStateRefreshFunc (absentThenSucceededResps n) none

/-- Probe failing locally on its first call. -/
def localErrorProbe : Nat → ProbeResult Unit := fun _ =>
  { result := none, status := "failed", error := some "connection reset" }

/-- A small poll configuration for exercising the timeout path quickly. -/
def alwaysPendingSpec : PollSpec :=
  { pendingStatuses := ["P"], targetStatuses := ["T"], timeout := 4
    initialDelay := 0, pollInterval := 1 }

/-- Probe that reports the pending status on every call. -/
def alwaysPendingProbe : Nat → ProbeResult Unit := fun _ =>
  { result := none, status := "P", error := none }

/-- With fuel exhausted the loop yields no outcome. -/
lemma waitAux_zero (spec : PollSpec) (probe : Nat → ProbeResult α) (n elapsed : Nat) :
    waitAux spec probe 0 n elapsed = none := rfl

/-- A probe call with a local error ends the session with that error. -/
lemma waitAux_probe_error (spec : PollSpec) (probe : Nat → ProbeResult α)
    (fuel n elapsed : Nat) (e : String) (herr : (probe n).error = some e) :
    waitAux spec probe (fuel + 1) n elapsed
      = some (Except.error (PollError.probeError e), n + 1) := by
  simp [waitAux, herr]

/-- A probe call with a target status ends the session successfully. -/
lemma waitAux_target (spec : PollSpec) (probe : Nat → ProbeResult α)
    (fuel n elapsed : Nat) (herr : (probe n).error = none)
    (ht : (probe n).status ∈ spec.targetStatuses) :
    waitAux spec probe (fuel + 1) n elapsed
      = some (Except.ok (probe n).result, n + 1) := by
  simp [waitAux, herr, ht]

/-- A pending (or absent) status within the time budget continues the loop. -/
lemma waitAux_pending_continue (spec : PollSpec) (probe : Nat → ProbeResult α)
    (fuel n elapsed : Nat) (herr : (probe n).error = none)
    (hnt : (probe n).status ∉ spec.targetStatuses)
    (hp : (probe n).status ∈ spec.pendingStatuses ∨ (probe n).status = "")
    (hel : elapsed ≤ spec.timeout) :
    waitAux spec probe (fuel + 1) n elapsed
      = waitAux spec probe fuel (n + 1) (elapsed + spec.pollInterval) := by
  simp [waitAux, herr, hnt, hp, Nat.not_lt.mpr hel]

/-- A pending (or absent) status past the time budget ends the session with
a timeout error. -/
lemma waitAux_pending_timeout (spec : PollSpec) (probe : Nat → ProbeResult α)
    (fuel n elapsed : Nat) (herr : (probe n).error = none)
    (hnt : (probe n).status ∉ spec.targetStatuses)
    (hp : (probe n).status ∈ spec.pendingStatuses ∨ (probe n).status = "")
    (hel : spec.timeout < elapsed) :
    waitAux spec probe (fuel + 1) n elapsed
      = some (Except.error (PollError.timeoutError (probe n).status elapsed), n + 1) := by
  simp [waitAux, herr, hnt, hp, hel]

/-- A non-empty status outside both classification sets ends the session
with an unexpected-state error. -/
lemma waitAux_unexpected (spec : PollSpec) (probe : Nat → ProbeResult α)
    (fuel n elapsed : Nat) (herr : (probe n).error = none)
    (hnt : (probe n).status ∉ spec.targetStatuses)
    (hnp : (probe n).status ∉ spec.pendingStatuses)
    (hne : (probe n).status ≠ "") :
    waitAux spec probe (fuel + 1) n elapsed
      = some (Except.error (PollError.unexpectedState (probe n).status), n + 1) := by
  have hor : ¬((probe n).status ∈ spec.pendingStatuses ∨ (probe n).status = "") := by
    intro h
    rcases h with h | h
    · exact hnp h
    · exact hne h
  simp [waitAux, herr, hnt, hor]

/-- A run of pending (or absent) observations inside the time budget only
advances the loop: after the run the session continues from the next call
index with the correspondingly larger elapsed time. -/
lemma waitAux_skip_pending (spec : PollSpec) (probe : Nat → ProbeResult α) :
    ∀ (k : Nat), ∀ (fuel n elapsed : Nat),
      (∀ i, i < k → (probe (n + i)).error = none
          ∧ ((probe (n + i)).status ∈ spec.pendingStatuses ∨ (probe (n + i)).status = "")
          ∧ (probe (n + i)).status ∉ spec.targetStatuses)
      → (∀ i, i < k → elapsed + i * spec.pollInterval ≤ spec.timeout)
      → waitAux spec probe (k + fuel) n elapsed
          = waitAux spec probe fuel (n + k) (elapsed + k * spec.pollInterval) := by
  intro k
  induction k with
  | zero => intro fuel n elapsed _ _; simp
  | succ k ih =>
    intro fuel n elapsed hp hb
    have h0 := hp 0 (Nat.succ_pos k)
    have hb0 := hb 0 (Nat.succ_pos k)
    simp only [Nat.add_zero, Nat.zero_mul] at h0 hb0
    have hstep : waitAux spec probe (k + 1 + fuel) n elapsed
        = waitAux spec probe (k + fuel) (n + 1) (elapsed + spec.pollInterval) := by
      have hre : k + 1 + fuel = (k + fuel) + 1 := by omega
      rw [hre]
      exact waitAux_pending_continue spec probe (k + fuel) n elapsed h0.1 h0.2.2 h0.2.1 hb0
    have hp' : ∀ i, i < k → (probe (n + 1 + i)).error = none
        ∧ ((probe (n + 1 + i)).status ∈ spec.pendingStatuses ∨ (probe (n + 1 + i)).status = "")
        ∧ (probe (n + 1 + i)).status ∉ spec.targetStatuses := by
      intro i hi
      have hx : n + 1 + i = n + (i + 1) := by omega
      rw [hx]
      exact hp (i + 1) (by omega)
    have hb' : ∀ i, i < k →
        elapsed + spec.pollInterval + i * spec.pollInterval ≤ spec.timeout := by
      intro i hi
      have hx : elapsed + spec.pollInterval + i * spec.pollInterval
          = elapsed + (i + 1) * spec.pollInterval := by ring
      rw [hx]
      exact hb (i + 1) (by omega)
    rw [hstep, ih fuel (n + 1) (elapsed + spec.pollInterval) hp' hb']
    have h1 : n + 1 + k = n + (k + 1) := by omega
    have h2 : elapsed + spec.pollInterval + k * spec.pollInterval
        = elapsed + (k + 1) * spec.pollInterval := by ring
    rw [h1, h2]

/-- An error-free response without a status record is reported by the
refresh function as the empty status with no error. -/
lemma refreshFunc_no_container (resp : Option GetQueryExecutionOutput)
    (h : hasStatusContainer resp = false) :
    queryExecutionStateRefreshFunc resp none = ⟨none, "", none⟩ := by
  cases resp with
  | none => rfl
  | some out =>
    cases hqe : out.queryExecution with
    | none => simp [queryExecutionStateRefreshFunc, hqe]
    | some qe =>
      cases hst : qe.status with
      | none => simp [queryExecutionStateRefreshFunc, hqe, hst]
      | some st => simp [hasStatusContainer, hqe, hst] at h

/-- An error-free response whose execution is in the FAILED state with a
change reason is reported with the reason attached as the probe error. -/
lemma refreshFunc_failed_with_reason (out : GetQueryExecutionOutput)
    (qe : QueryExecution) (st : QueryExecutionStatus) (r : String)
    (hqe : out.queryExecution = some qe) (hst : qe.status = some st)
    (hstate : st.state = some athenaQueryExecutionStateFailed)
    (hreason : st.stateChangeReason = some r) :
    queryExecutionStateRefreshFunc (some out) none
      = ⟨some out, athenaQueryExecutionStateFailed, some ("reason: " ++ r)⟩ := by
  simp [queryExecutionStateRefreshFunc, hqe, hst, hstate, hreason, awsStringValue]

/-- The Athena pending and target status sets share no element. -/
lemma athenaConf_disjoint : ∀ s, s ∈ athenaExecutionStateConf.pendingStatuses →
    s ∉ athenaExecutionStateConf.targetStatuses := by
  intro s hs ht
  simp [athenaExecutionStateConf, athenaQueryExecutionStateQueued,
    athenaQueryExecutionStateRunning, athenaQueryExecutionStateSucceeded] at hs ht
  rcases hs with h | h <;> rw [h] at ht <;> exact absurd ht (by decide)

/-- Claim C1 (amended): for a poll session whose spec has disjoint pending
and target sets, if the probe returns a pending status on each of its first
N calls, the elapsed time at each of those pending checks has not yet
exceeded the timeout, and the probe returns a target status on call N+1,
then WaitForTerminal performs exactly N+1 probe calls and returns the
result fetched by the last call with no error. -/
theorem waitForTerminal_pending_then_target (spec : PollSpec) (probe : Nat → ProbeResult α)
    (N fuel : Nat)
    (hdisj : ∀ s, s ∈ spec.pendingStatuses → s ∉ spec.targetStatuses)
    (hpend : ∀ i, i < N → (probe i).error = none ∧ (probe i).status ∈ spec.pendingStatuses)
    (hbudget : ∀ i, i < N → spec.initialDelay + i * spec.pollInterval ≤ spec.timeout)
    (herrN : (probe N).error = none)
    (htarget : (probe N).status ∈ spec.targetStatuses)
    (hfuel : N < fuel) :
    WaitForTerminal spec probe fuel = some (Except.ok (probe N).result, N + 1) := by
  have hp : ∀ i, i < N → (probe (0 + i)).error = none
      ∧ ((probe (0 + i)).status ∈ spec.pendingStatuses ∨ (probe (0 + i)).status = "")
      ∧ (probe (0 + i)).status ∉ spec.targetStatuses := by
    intro i hi
    have h := hpend i hi
    simp only [Nat.zero_add]
    exact ⟨h.1, Or.inl h.2, hdisj _ h.2⟩
  have hk : fuel = N + (fuel - N) := by omega
  rw [WaitForTerminal, hk,
    waitAux_skip_pending spec probe N (fuel - N) 0 spec.initialDelay hp hbudget]
  have hf : fuel - N = (fuel - N - 1) + 1 := by omega
  rw [hf]
  have hstep := waitAux_target spec probe (fuel - N - 1) (0 + N)
    (spec.initialDelay + N * spec.pollInterval) (by simpa using herrN) (by simpa using htarget)
  simpa using hstep

/-- Claim C1 counterexample: on a spec whose timeout expires at the first
pending observation, a probe that is pending once and then in the target
state does not give the claimed two calls and success — the session times
out after a single probe call. -/
theorem waitForTerminal_pending_then_target_cex :
    WaitForTerminal shortFuseSpec shortFuseProbe 10
        = some (Except.error (PollError.timeoutError "P" 1), 1)
      ∧ WaitForTerminal shortFuseSpec shortFuseProbe 10
        ≠ some (Except.ok (shortFuseProbe 1).result, 2) := by
  constructor
  · rfl
  · decide

/-- Claim C1 witness: the Athena configuration run on the spec's concrete
scenario QUEUED, RUNNING, SUCCEEDED makes three probe calls and succeeds. -/
theorem waitForTerminal_pending_then_target_witness :
    WaitForTerminal athenaExecutionStateConf queuedRunningSucceededProbe 4
      = some (Except.ok (queuedRunningSucceededProbe 2).result, 3) :=
  waitForTerminal_pending_then_target athenaExecutionStateConf queuedRunningSucceededProbe 2 4
    athenaConf_disjoint (by decide) (by decide) (by decide) (by decide) (by decide)

/-- Claim C2 (amended): if the session reaches call k+1 through error-free
pending (or absent) observations made within the time budget, and that call
returns, with no local error, a non-empty status in neither the pending nor
the target set, then WaitForTerminal returns an unexpected-state error
immediately after that call — k+1 probe calls in total, regardless of
whether the elapsed time is still below the timeout. -/
theorem waitForTerminal_unexpected_status (spec : PollSpec) (probe : Nat → ProbeResult α)
    (k fuel : Nat)
    (hpend : ∀ i, i < k → (probe i).error = none
        ∧ ((probe i).status ∈ spec.pendingStatuses ∨ (probe i).status = "")
        ∧ (probe i).status ∉ spec.targetStatuses)
    (hbudget : ∀ i, i < k → spec.initialDelay + i * spec.pollInterval ≤ spec.timeout)
    (herrK : (probe k).error = none)
    (hnt : (probe k).status ∉ spec.targetStatuses)
    (hnp : (probe k).status ∉ spec.pendingStatuses)
    (hne : (probe k).status ≠ "")
    (hfuel : k < fuel) :
    WaitForTerminal spec probe fuel
      = some (Except.error (PollError.unexpectedState (probe k).status), k + 1) := by
  have hp : ∀ i, i < k → (probe (0 + i)).error = none
      ∧ ((probe (0 + i)).status ∈ spec.pendingStatuses ∨ (probe (0 + i)).status = "")
      ∧ (probe (0 + i)).status ∉ spec.targetStatuses := by
    intro i hi
    simpa using hpend i hi
  have hk : fuel = k + (fuel - k) := by omega
  rw [WaitForTerminal, hk,
    waitAux_skip_pending spec probe k (fuel - k) 0 spec.initialDelay hp hbudget]
  have hf : fuel - k = (fuel - k - 1) + 1 := by omega
  rw [hf]
  have hstep := waitAux_unexpected spec probe (fuel - k - 1) (0 + k)
    (spec.initialDelay + k * spec.pollInterval) (by simpa using herrK)
    (by simpa using hnt) (by simpa using hnp) (by simpa using hne)
  simpa using hstep

/-- Claim C2 counterexample: against the Athena configuration, a probe call
whose response lacks a status container reports the empty status with no
local error — a status in neither the pending nor the target set — yet the
session does not stop with an unexpected-state error after that call: it
keeps polling and succeeds on the following call. -/
theorem waitForTerminal_unexpected_status_cex :
    WaitForTerminal athenaExecutionStateConf lateStatusProbe 3
        = some (Except.ok (some (plainStateOutput athenaQueryExecutionStateSucceeded)), 2)
      ∧ WaitForTerminal athenaExecutionStateConf lateStatusProbe 3
        ≠ some (Except.error (PollError.unexpectedState ""), 1) := by
  constructor
  · rfl
  · decide

/-- Claim C2 witness: the Athena session observing RUNNING and then
CANCELLED stops with an unexpected-state error after the second call. -/
theorem waitForTerminal_unexpected_status_witness :
    WaitForTerminal athenaExecutionStateConf runningCancelledProbe 3
      = some (Except.error (PollError.unexpectedState (runningCancelledProbe 1).status), 2) :=
  waitForTerminal_unexpected_status athenaExecutionStateConf runningCancelledProbe 1 3
    (by decide) (by decide) (by decide) (by decide) (by decide) (by decide) (by decide)

/-- Claim C5: if the session reaches call k+1 through error-free pending (or
absent) observations made within the time budget, and that call returns a
non-nil local error, WaitForTerminal propagates that error immediately:
k+1 probe calls in total and no result. -/
theorem waitForTerminal_probe_error_propagates (spec : PollSpec) (probe : Nat → ProbeResult α)
    (k fuel : Nat) (e : String)
    (hpend : ∀ i, i < k → (probe i).error = none
        ∧ ((probe i).status ∈ spec.pendingStatuses ∨ (probe i).status = "")
        ∧ (probe i).status ∉ spec.targetStatuses)
    (hbudget : ∀ i, i < k → spec.initialDelay + i * spec.pollInterval ≤ spec.timeout)
    (herrK : (probe k).error = some e)
    (hfuel : k < fuel) :
    WaitForTerminal spec probe fuel
      = some (Except.error (PollError.probeError e), k + 1) := by
  have hp : ∀ i, i < k → (probe (0 + i)).error = none
      ∧ ((probe (0 + i)).status ∈ spec.pendingStatuses ∨ (probe (0 + i)).status = "")
      ∧ (probe (0 + i)).status ∉ spec.targetStatuses := by
    intro i hi
    simpa using hpend i hi
  have hk : fuel = k + (fuel - k) := by omega
  rw [WaitForTerminal, hk,
    waitAux_skip_pending spec probe k (fuel - k) 0 spec.initialDelay hp hbudget]
  have hf : fuel - k = (fuel - k - 1) + 1 := by omega
  rw [hf]
  have hstep := waitAux_probe_error spec probe (fuel - k - 1) (0 + k)
    (spec.initialDelay + k * spec.pollInterval) e (by simpa using herrK)
  simpa using hstep

/-- Claim C5 witness: a probe failing locally on its first call makes the
Athena session stop immediately with that error after one call. -/
theorem waitForTerminal_probe_error_propagates_witness :
    WaitForTerminal athenaExecutionStateConf localErrorProbe 5
      = some (Except.error (PollError.probeError "connection reset"), 1) :=
  waitForTerminal_probe_error_propagates athenaExecutionStateConf localErrorProbe 0 5
    "connection reset" (by decide) (by decide) (by decide) (by decide)

/-- Claim C3: if the session reaches call k+1 through error-free pending
(or absent) observations made within the time budget, and that call's
response is a FAILED execution carrying a remote change reason, then the
session ends after exactly k+1 probe calls with an error that contains the
reason string. -/
theorem waitForTerminal_failed_reason_in_error (spec : PollSpec)
    (probe : Nat → ProbeResult GetQueryExecutionOutput)
    (resps : Nat → Option GetQueryExecutionOutput) (k fuel : Nat)
    (out : GetQueryExecutionOutput) (qe : QueryExecution) (st : QueryExecutionStatus)
    (r : String)
    (hprobe : ∀ n, probe n = queryExecutionStateRefreshFunc (resps n) none)
    (hpend : ∀ i, i < k → (probe i).error = none
        ∧ ((probe i).status ∈ spec.pendingStatuses ∨ (probe i).status = "")
        ∧ (probe i).status ∉ spec.targetStatuses)
    (hbudget : ∀ i, i < k → spec.initialDelay + i * spec.pollInterval ≤ spec.timeout)
    (hresp : resps k = some out) (hqe : out.queryExecution = some qe)
    (hst : qe.status = some st)
    (hstate : st.state = some athenaQueryExecutionStateFailed)
    (hreason : st.stateChangeReason = some r)
    (hfuel : k < fuel) :
    WaitForTerminal spec probe fuel
        = some (Except.error (PollError.probeError ("reason: " ++ r)), k + 1)
      ∧ ∃ a, "reason: " ++ r = a ++ r := by
  have herrK : (probe k).error = some ("reason: " ++ r) := by
    rw [hprobe k, hresp, refreshFunc_failed_with_reason out qe st r hqe hst hstate hreason]
  have hp : ∀ i, i < k → (probe (0 + i)).error = none
      ∧ ((probe (0 + i)).status ∈ spec.pendingStatuses ∨ (probe (0 + i)).status = "")
      ∧ (probe (0 + i)).status ∉ spec.targetStatuses := by
    intro i hi
    simpa using hpend i hi
  refine ⟨?_, "reason: ", rfl⟩
  have hk : fuel = k + (fuel - k) := by omega
  rw [WaitForTerminal, hk,
    waitAux_skip_pending spec probe k (fuel - k) 0 spec.initialDelay hp hbudget]
  have hf : fuel - k = (fuel - k - 1) + 1 := by omega
  rw [hf]
  have hstep := waitAux_probe_error spec probe (fuel - k - 1) (0 + k)
    (spec.initialDelay + k * spec.pollInterval) ("reason: " ++ r) (by simpa using herrK)
  simpa using hstep

/-- Claim C3 witness: the Athena session observing RUNNING and then FAILED
with reason string given as syntax error makes two probe calls and fails
with an error containing that reason. -/
theorem waitForTerminal_failed_reason_in_error_witness :
    WaitForTerminal athenaExecutionStateConf failedWithReasonProbe 3
        = some (Except.error (PollError.probeError ("reason: " ++ "syntax error")), 2)
      ∧ ∃ a, "reason: " ++ "syntax error" = a ++ "syntax error" :=
  waitForTerminal_failed_reason_in_error athenaExecutionStateConf failedWithReasonProbe
    failedWithReasonResps 1 3 (failedOutput "syntax error")
    ⟨some ⟨some athenaQueryExecutionStateFailed, some "syntax error"⟩⟩
    ⟨some athenaQueryExecutionStateFailed, some "syntax error"⟩ "syntax error"
    (fun _ => rfl) (by decide) (by decide) rfl rfl rfl rfl rfl (by decide)

/-- Claim C4: probe calls whose error-free response lacks a status record
are classified as still pending — after any finite run of such absent
observations made within the time budget, the session has produced no error
and simply continues polling from the next call, with the elapsed time
advanced accordingly. -/
theorem waitForTerminal_absent_status_pending (spec : PollSpec)
    (probe : Nat → ProbeResult GetQueryExecutionOutput)
    (resps : Nat → Option GetQueryExecutionOutput) (k fuel : Nat)
    (hprobe : ∀ i, i < k → probe i = queryExecutionStateRefreshFunc (resps i) none)
    (hnil : ∀ i, i < k → hasStatusContainer (resps i) = false)
    (hnt : "" ∉ spec.targetStatuses)
    (hbudget : ∀ i, i < k → spec.initialDelay + i * spec.pollInterval ≤ spec.timeout) :
    WaitForTerminal spec probe (k + fuel)
      = waitAux spec probe fuel k (spec.initialDelay + k * spec.pollInterval) := by
  have hp : ∀ i, i < k → (probe (0 + i)).error = none
      ∧ ((probe (0 + i)).status ∈ spec.pendingStatuses ∨ (probe (0 + i)).status = "")
      ∧ (probe (0 + i)).status ∉ spec.targetStatuses := by
    intro i hi
    have heq : probe (0 + i) = ⟨none, "", none⟩ := by
      simp only [Nat.zero_add]
      rw [hprobe i hi, refreshFunc_no_container _ (hnil i hi)]
    rw [heq]
    exact ⟨rfl, Or.inr rfl, hnt⟩
  rw [WaitForTerminal, waitAux_skip_pending spec probe k fuel 0 spec.initialDelay hp hbudget]
  simp

/-- Claim C4 witness: two absent-status observations against the Athena
configuration produce no error and leave the session polling at the third
call; with a succeeded response there it finishes successfully. -/
theorem waitForTerminal_absent_status_pending_witness :
    WaitForTerminal athenaExecutionStateConf absentThenSucceededProbe (2 + 1)
      = waitAux athenaExecutionStateConf absentThenSucceededProbe 1 2
          (athenaExecutionStateConf.initialDelay + 2 * athenaExecutionStateConf.pollInterval) :=
  waitForTerminal_absent_status_pending athenaExecutionStateConf absentThenSucceededProbe
    absentThenSucceededResps 2 1 (fun _ _ => rfl) (by decide) (by decide) (by decide)

/-- When every probe call is pending and outside the target set, no amount
of fuel lets the loop produce a successful outcome. -/
lemma waitAux_all_pending_no_success (spec : PollSpec) (probe : Nat → ProbeResult α)
    (hpend : ∀ m, (probe m).error = none ∧ (probe m).status ∈ spec.pendingStatuses
        ∧ (probe m).status ∉ spec.targetStatuses) :
    ∀ (fuel n elapsed : Nat) (r : Option α) (c : Nat),
      waitAux spec probe fuel n elapsed ≠ some (Except.ok r, c) := by
  intro fuel
  induction fuel with
  | zero => intro n elapsed r c; simp [waitAux]
  | succ f ih =>
    intro n elapsed r c
    obtain ⟨h1, h2, h3⟩ := hpend n
    by_cases hel : spec.timeout < elapsed
    · rw [waitAux_pending_timeout spec probe f n elapsed h1 h3 (Or.inl h2) hel]
      simp
    · rw [waitAux_pending_continue spec probe f n elapsed h1 h3 (Or.inl h2)
        (Nat.not_lt.mp hel)]
      exact ih (n + 1) (elapsed + spec.pollInterval) r c

/-- When every probe call is pending, a positive poll interval and enough
fuel drive the loop past the timeout, where it reports a timeout error
whose recorded elapsed time exceeds the timeout. -/
lemma waitAux_all_pending_timeout (spec : PollSpec) (probe : Nat → ProbeResult α)
    (hpend : ∀ m, (probe m).error = none ∧ (probe m).status ∈ spec.pendingStatuses
        ∧ (probe m).status ∉ spec.targetStatuses)
    (hint : 1 ≤ spec.pollInterval) :
    ∀ (fuel n elapsed : Nat), 1 ≤ fuel → spec.timeout + 2 ≤ fuel + elapsed →
      ∃ s e c, waitAux spec probe fuel n elapsed
          = some (Except.error (PollError.timeoutError s e), c) ∧ spec.timeout < e := by
  intro fuel
  induction fuel with
  | zero => intro n elapsed h1 _; omega
  | succ f ih =>
    intro n elapsed _ hbound
    obtain ⟨h1, h2, h3⟩ := hpend n
    by_cases hel : spec.timeout < elapsed
    · exact ⟨(probe n).status, elapsed, n + 1,
        waitAux_pending_timeout spec probe f n elapsed h1 h3 (Or.inl h2) hel, hel⟩
    · have hle : elapsed ≤ spec.timeout := Nat.not_lt.mp hel
      rw [waitAux_pending_continue spec probe f n elapsed h1 h3 (Or.inl h2) hle]
      exact ih (n + 1) (elapsed + spec.pollInterval) (by omega) (by omega)

/-- Claim C6: for a session whose spec has disjoint pending and target sets,
a positive poll interval, and a probe that reports a pending status on every
call, WaitForTerminal never returns a successful result at any fuel, and
with enough fuel to let the wall clock pass the timeout it returns a
timeout error whose recorded elapsed time exceeds the timeout. -/
theorem waitForTerminal_always_pending_timeout (spec : PollSpec)
    (probe : Nat → ProbeResult α)
    (hdisj : ∀ s, s ∈ spec.pendingStatuses → s ∉ spec.targetStatuses)
    (hpend : ∀ m, (probe m).error = none ∧ (probe m).status ∈ spec.pendingStatuses)
    (hint : 1 ≤ spec.pollInterval) :
    (∀ (fuel : Nat) (r : Option α) (c : Nat),
      WaitForTerminal spec probe fuel ≠ some (Except.ok r, c))
    ∧ (∀ fuel, 1 ≤ fuel → spec.timeout + 2 ≤ fuel + spec.initialDelay →
        ∃ s e c, WaitForTerminal spec probe fuel
            = some (Except.error (PollError.timeoutError s e), c) ∧ spec.timeout < e) := by
  have hpend' : ∀ m, (probe m).error = none ∧ (probe m).status ∈ spec.pendingStatuses
      ∧ (probe m).status ∉ spec.targetStatuses := by
    intro m
    exact ⟨(hpend m).1, (hpend m).2, hdisj _ (hpend m).2⟩
  constructor
  · intro fuel r c
    exact waitAux_all_pending_no_success spec probe hpend' fuel 0 spec.initialDelay r c
  · intro fuel h1 h2
    exact waitAux_all_pending_timeout spec probe hpend' hint fuel 0 spec.initialDelay h1 h2

/-- Claim C6 witness: a probe that is always pending against a spec with a
four-second timeout and one-second interval times out, the recorded elapsed
time exceeding the timeout. -/
theorem waitForTerminal_always_pending_timeout_witness :
    ∃ s e c, WaitForTerminal alwaysPendingSpec alwaysPendingProbe 7
        = some (Except.error (PollError.timeoutError s e), c)
      ∧ alwaysPendingSpec.timeout < e :=
  (waitForTerminal_always_pending_timeout alwaysPendingSpec alwaysPendingProbe
    (by intro s hs ht; simp [alwaysPendingSpec] at hs ht; rw [hs] at ht; exact absurd ht (by decide))
    (fun _ => ⟨rfl, by show ("P" : String) ∈ ["P"]; decide⟩) (by decide)).2 7
    (by decide) (by decide)

/-- Claim C7: the pending and target status sets of the poll configuration
the program constructs (the Athena execution state configuration) are
disjoint — their intersection is empty. -/
theorem athenaExecutionStateConf_disjoint :
    athenaExecutionStateConf.pendingStatuses.inter
      athenaExecutionStateConf.targetStatuses = [] := by
  decide

/-- A string has positive length exactly when it is not the empty string. -/
lemma string_pos_length_iff (s : String) : 0 < s.length ↔ s ≠ "" := by
  cases s with
  | mk data =>
    cases data with
    | nil => simp [String.length]
    | cons c cs =>
      simp only [String.length, List.length_cons, ne_eq]
      constructor
      · intro _ h
        exact absurd (congrArg String.data h) (by simp)
      · intro _
        exact Nat.succ_pos _

/-- The character data of an appended string is the appended data. -/
lemma string_data_append (s t : String) : (s ++ t).data = s.data ++ t.data := rfl

/-- Strings with the same character data are equal. -/
lemma string_eq_of_data {s t : String} (h : s.data = t.data) : s = t := by
  cases s
  cases t
  exact congrArg String.mk h

/-- Claim C8: the expanded result configuration always locates output at
the s3 scheme prefix followed by the bucket, carries an encryption
configuration exactly when the encryption list is non-empty, and in that
case sets the KMS key exactly when the configured key string is non-empty. -/
theorem expandAthenaResultConfiguration_spec (bucket : String)
    (lst : List EncryptionConfigurationInput) :
    (expandAthenaResultConfiguration bucket lst).outputLocation = some ("s3://" ++ bucket)
    ∧ ((expandAthenaResultConfiguration bucket lst).encryptionConfiguration = none ↔ lst = [])
    ∧ (∀ d rest, lst = d :: rest →
        ∃ ec, (expandAthenaResultConfiguration bucket lst).encryptionConfiguration = some ec
          ∧ ec.encryptionOption = some d.encryption_option
          ∧ (ec.kmsKey = none ↔ d.kms_key = "")) := by
  refine ⟨?_, ?_, ?_⟩
  · cases lst <;> rfl
  · cases lst <;> simp [expandAthenaResultConfiguration]
  · intro d rest h
    subst h
    refine ⟨_, rfl, rfl, ?_⟩
    show (if 0 < d.kms_key.length then some d.kms_key else none) = none ↔ d.kms_key = ""
    by_cases hl : 0 < d.kms_key.length
    · rw [if_pos hl]
      constructor
      · intro hnone
        cases hnone
      · intro heq
        rw [heq] at hl
        exact absurd hl (by decide)
    · rw [if_neg hl]
      constructor
      · intro _
        by_contra hne
        exact hl ((string_pos_length_iff _).mpr hne)
      · intro _
        rfl

/-- Claim C8 witness: a one-element encryption list with a non-empty key
yields the s3 output location and an encryption configuration whose KMS
key is set. -/
theorem expandAthenaResultConfiguration_spec_witness :
    (expandAthenaResultConfiguration "mybucket" [⟨"SSE_KMS", "key1"⟩]).outputLocation
        = some ("s3://" ++ "mybucket")
    ∧ ∃ ec, (expandAthenaResultConfiguration "mybucket"
              [⟨"SSE_KMS", "key1"⟩]).encryptionConfiguration = some ec
        ∧ ec.encryptionOption = some "SSE_KMS"
        ∧ (ec.kmsKey = none ↔ ("key1" : String) = "") :=
  ⟨(expandAthenaResultConfiguration_spec "mybucket" [⟨"SSE_KMS", "key1"⟩]).1,
   (expandAthenaResultConfiguration_spec "mybucket" [⟨"SSE_KMS", "key1"⟩]).2.2
     ⟨"SSE_KMS", "key1"⟩ [] rfl⟩

/-- Claim C9: the drop query is the drop statement with the backquoted
name, with the cascade clause present exactly when force destroy is set,
and it always ends in a semicolon. -/
theorem dropDatabaseQueryString_spec (name : String) :
    dropDatabaseQueryString name true = ("drop database `" ++ name) ++ "` cascade;"
    ∧ dropDatabaseQueryString name false = ("drop database `" ++ name) ++ "`;"
    ∧ ∀ f, ∃ t, dropDatabaseQueryString name f = t ++ ";" := by
  refine ⟨?_, ?_, ?_⟩
  · show (("drop database `" ++ name ++ "`") ++ " cascade") ++ ";" = _
    apply string_eq_of_data
    simp only [string_data_append, List.append_assoc]
    congr 2
  · show ("drop database `" ++ name ++ "`") ++ ";" = _
    apply string_eq_of_data
    simp only [string_data_append, List.append_assoc]
    congr 2
  · intro f
    cases f with
    | false => exact ⟨"drop database `" ++ name ++ "`", rfl⟩
    | true => exact ⟨("drop database `" ++ name ++ "`") ++ " cascade", rfl⟩

/-- Claim C10: deleting a Route53 health check is idempotent with respect
to a missing remote resource — a NoSuchHealthCheck error from the delete
call yields a nil return, a nil error yields a nil return, and any other
error is returned wrapped in the deletion failure message. -/
theorem route53HealthCheckDelete_idempotent (id : String) (err : Option AwsError) :
    (isAWSErr err errCodeNoSuchHealthCheck "" = true →
      resourceAwsRoute53HealthCheckDelete id err = none)
    ∧ (err = none → resourceAwsRoute53HealthCheckDelete id err = none)
    ∧ (∀ e, err = some e → isAWSErr err errCodeNoSuchHealthCheck "" = false →
        resourceAwsRoute53HealthCheckDelete id err
          = some ("error deleting Route53 Health Check (" ++ id ++ "): " ++ e.message)) := by
  refine ⟨?_, ?_, ?_⟩
  · intro h
    simp [resourceAwsRoute53HealthCheckDelete, h]
  · intro h
    subst h
    simp [resourceAwsRoute53HealthCheckDelete, isAWSErr]
  · intro e he h
    subst he
    simp [resourceAwsRoute53HealthCheckDelete, h]

/-- Claim C10 witness: a NoSuchHealthCheck error is swallowed, while an
unrelated throttling error is wrapped and returned. -/
theorem route53HealthCheckDelete_idempotent_witness :
    resourceAwsRoute53HealthCheckDelete "hc1" (some ⟨"NoSuchHealthCheck", "gone"⟩) = none
    ∧ resourceAwsRoute53HealthCheckDelete "hc1" (some ⟨"Throttling", "slow down"⟩)
        = some ("error deleting Route53 Health Check (" ++ "hc1" ++ "): " ++ "slow down") :=
  ⟨(route53HealthCheckDelete_idempotent "hc1" (some ⟨"NoSuchHealthCheck", "gone"⟩)).1
     (by decide),
   (route53HealthCheckDelete_idempotent "hc1" (some ⟨"Throttling", "slow down"⟩)).2.2
     ⟨"Throttling", "slow down"⟩ rfl (by decide)⟩

end AwsProvider
